import Mathlib

/-!
Verification development for the conformance-and-coverage engine of the
Synthetic-Data-Validator repository (`validator/data_checker.py`).

The Python source is shallowly embedded below.  Machine floats are modelled
by exact rationals (`ℚ`); the Python float values `nan` (and numpy's
floating NaN wrapper) are separate constructors, since the normalizer
treats them specially.  The external `jsonschema.validate` call is
modelled by an abstract oracle that reports, per record, at most one
outcome (jsonschema raises at most one exception per `validate` call).
CPython's hash-randomized set iteration order is modelled by an explicit
hash parameter: `list(s)` for a Python `set` enumerates `s` in an order
determined by the interpreter's string hashing, which the embedding
receives as a function argument.
-/

namespace SDV

mutual

/-- Python runtime values that can appear in a pandas cell, in a schema
dictionary, or inside nested containers.  Mirrors the type dispatch of
`DataChecker._to_json_serializable` (data_checker.py lines 13-44):
`null` is `None`, `nan` is the Python float `float('nan')`, `npInt`,
`npFloat`, `npNan`, `npBool` are the numpy scalar wrappers
(`np.integer` / `np.floating` — a finite value or NaN — / `np.bool_`),
`timestamp`/`timedelta` are `pd.Timestamp`/`pd.Timedelta` carrying their
`str()` form, `naT` is `pd.NaT`, `series` is a `pd.Series` (whose
`.tolist()` is its element list), `frame` is a `pd.DataFrame` (a list of
rows, each a dict), and `objOther r b` is any other object with `str()`
form `r` which `json.dumps` accepts iff `b = true`. -/
inductive PyVal : Type where
  | null
  | bool (b : Bool)
  | int (n : Int)
  | float (q : ℚ)
  | nan
  | str (s : String)
  | list (xs : PyList)
  | dict (xs : PyDict)
  | series (xs : PyList)
  | frame (rows : PyRows)
  | npInt (n : Int)
  | npFloat (q : ℚ)
  | npNan
  | npBool (b : Bool)
  | timestamp (s : String)
  | timedelta (s : String)
  | naT
  | objOther (r : String) (serializable : Bool)

/-- A Python list of `PyVal`s (spelled as its own inductive so that the
normalizer below is structurally recursive). -/
inductive PyList : Type where
  | nil
  | cons (v : PyVal) (t : PyList)

/-- A Python dict with string keys and `PyVal` values. -/
inductive PyDict : Type where
  | nil
  | cons (k : String) (v : PyVal) (t : PyDict)

/-- A list of dict rows, as produced by `DataFrame.to_dict(orient='records')`. -/
inductive PyRows : Type where
  | nil
  | cons (r : PyDict) (t : PyRows)

end

end SDV

namespace SDV

mutual

/-- Embedding of `DataChecker._to_json_serializable` (data_checker.py
lines 13-44).  Branches in source order: dict, list, `pd.Series` (via
`.tolist()`), `pd.DataFrame` (via `_convert_dataframe_to_json_serializable`),
`np.integer`, `np.floating` (note: a numpy floating NaN hits this branch
*before* the `pd.isna` check and becomes the Python float NaN, not `None`),
`np.bool_`, `pd.Timestamp`/`pd.Timedelta` via `str`, then the scalar
`pd.isna` check mapping `None`/NaN/`NaT` to `None`, then the
`json.dumps` fallback returning the object itself when serializable and
`str(obj)` otherwise. -/
def to_json_serializable : PyVal → PyVal
  | .dict xs => .dict (to_json_serializableDict xs)
  | .list xs => .list (to_json_serializableList xs)
  | .series xs => .list (to_json_serializableList xs)
  | .frame rows => .list (to_json_serializableRows rows)
  | .npInt n => .int n
  | .npFloat q => .float q
  | .npNan => .nan
  | .npBool b => .bool b
  | .timestamp s => .str s
  | .timedelta s => .str s
  | .null => .null
  | .nan => .null
  | .naT => .null
  | .bool b => .bool b
  | .int n => .int n
  | .float q => .float q
  | .str s => .str s
  | .objOther r true => .objOther r true
  | .objOther r false => .str r

/-- Element-wise normalization of a Python list. -/
def to_json_serializableList : PyList → PyList
  | .nil => .nil
  | .cons v t => .cons (to_json_serializable v) (to_json_serializableList t)

/-- Value-wise normalization of a Python dict. -/
def to_json_serializableDict : PyDict → PyDict
  | .nil => .nil
  | .cons k v t => .cons k (to_json_serializable v) (to_json_serializableDict t)

/-- Embedding of `_convert_dataframe_to_json_serializable` applied to the
record rows of a DataFrame: each row dict is normalized. -/
def to_json_serializableRows : PyRows → PyList
  | .nil => .nil
  | .cons r t => .cons (.dict (to_json_serializableDict r)) (to_json_serializableRows t)

end

mutual

/-- `true` iff the value contains no numpy floating-NaN wrapper anywhere. -/
def noNpNan : PyVal → Bool
  | .npNan => false
  | .list xs => noNpNanList xs
  | .series xs => noNpNanList xs
  | .dict xs => noNpNanDict xs
  | .frame rows => noNpNanRows rows
  | _ => true

/-- `noNpNan` over a Python list. -/
def noNpNanList : PyList → Bool
  | .nil => true
  | .cons v t => noNpNan v && noNpNanList t

/-- `noNpNan` over a Python dict. -/
def noNpNanDict : PyDict → Bool
  | .nil => true
  | .cons _ v t => noNpNan v && noNpNanDict t

/-- `noNpNan` over DataFrame rows. -/
def noNpNanRows : PyRows → Bool
  | .nil => true
  | .cons r t => noNpNanDict r && noNpNanRows t

end

/-- Hashable JSON-level scalar values: the values `_to_json_serializable`
can produce that Python's `set` accepts (used by the enum-coverage sets).
`blob r` stands for a non-standard object that `json.dumps` accepts. -/
inductive Scalar : Type where
  | null
  | bool (b : Bool)
  | int (n : Int)
  | float (q : ℚ)
  | nan
  | str (s : String)
  | blob (r : String)
deriving DecidableEq, Repr

/-- Normalize a value and view the result as a hashable scalar: `some s`
when `_to_json_serializable` yields the scalar `s`, `none` when it yields
a list or dict (which Python's `set.update` / `set(...)` rejects with
`TypeError: unhashable type`). -/
def normScalar : PyVal → Option Scalar
  | .null => some .null
  | .nan => some .null
  | .naT => some .null
  | .bool b => some (.bool b)
  | .npBool b => some (.bool b)
  | .int n => some (.int n)
  | .npInt n => some (.int n)
  | .float q => some (.float q)
  | .npFloat q => some (.float q)
  | .npNan => some .nan
  | .str s => some (.str s)
  | .timestamp s => some (.str s)
  | .timedelta s => some (.str s)
  | .objOther r true => some (.blob r)
  | .objOther r false => some (.str r)
  | .list _ => none
  | .dict _ => none
  | .series _ => none
  | .frame _ => none

/-- `pd.isnull` on a scalar cell value (used by `dropna` / `isnull`). -/
def pyIsNa : PyVal → Bool
  | .null => true
  | .nan => true
  | .naT => true
  | .npNan => true
  | _ => false

/-- The numeric content of a cell of a numeric-dtype pandas column:
`some q` for finite ints/floats (booleans count as 0/1, as in Python
arithmetic), `none` for NaN-like values, which `Series.min`/`Series.max`
skip. -/
def pyNumQ : PyVal → Option ℚ
  | .int n => some (n : ℚ)
  | .npInt n => some (n : ℚ)
  | .float q => some q
  | .npFloat q => some q
  | .bool b => some (if b then 1 else 0)
  | .npBool b => some (if b then 1 else 0)
  | _ => none

/-- Python `is None` test on a normalized constraint value (the stored
`minimum`/`maximum` after `_to_json_serializable`, where an absent key's
`.get` default `None` and NaN-like declared values both became `None`). -/
def PyVal.isNull : PyVal → Bool
  | .null => true
  | _ => false

/-- One pandas column: its cell values (top to bottom) and whether
`pd.api.types.is_numeric_dtype` holds for its dtype. -/
structure Column : Type where
  values : List PyVal
  numeric : Bool

/-- A pandas DataFrame: labelled columns (labels are treated as unique,
as `data_df[col]` requires) together with the row count. -/
structure DataFrame : Type where
  cols : List (String × Column)
  nrows : Nat

/-- `data_df.empty`: true iff either axis has length zero. -/
def DataFrame.isEmptyDf (df : DataFrame) : Bool :=
  df.nrows == 0 || df.cols.isEmpty

/-- `data_df[name]` for a unique column label. -/
def colLookup (df : DataFrame) (name : String) : Option Column :=
  (df.cols.find? (fun p => p.1 == name)).map (fun p => p.2)

/-- Row `i` of `to_dict(orient='records')` after
`_convert_dataframe_to_json_serializable`: every column contributes its
(normalized) cell. -/
def recordAt (df : DataFrame) (i : Nat) : List (String × PyVal) :=
  df.cols.map (fun p => (p.1, to_json_serializable (p.2.values.getD i .null)))

/-- The full normalized record list handed to the per-record validation
loop (data_checker.py line 86). -/
def records (df : DataFrame) : List (List (String × PyVal)) :=
  (List.range df.nrows).map (recordAt df)

/-- The sub-dictionary of one schema property that the coverage analyzer
reads: `enum`, `minimum`, `maximum` (absent keys are `none`). -/
structure PropSpec : Type where
  enum : Option (List PyVal)
  minimum : Option PyVal
  maximum : Option PyVal

/-- A truthy (non-empty) schema dict: its `required` list (default `[]`)
and its `properties` mapping in declaration order (Python dicts preserve
insertion order; keys are unique).  A falsy schema (`None` or `{}`) is
represented as `Option.none` at the call site. -/
structure JSchema : Type where
  required : List String
  properties : List (String × PropSpec)

/-- Outcome of the external `jsonschema.validate(instance, schema)` call
on one record: success, a `ValidationError` carrying `str(e.path)`,
`e.message`, `e.validator`, `e.validator_value` and `e.instance`, or any
other exception carrying `str(e)`.  `jsonschema.validate` raises at most
one exception per call, so one outcome per record. -/
inductive VOutcome : Type where
  | ok
  | fail (path msg vkind : String) (vval inst : PyVal)
  | exn (msg : String)

/-- The external validator, abstracted as a function of the normalized
record. -/
def Oracle : Type := List (String × PyVal) → VOutcome

/-- One entry of the report's `errors` list.  `noSchema` is the fatal
"No schema provided" entry; `ruleViolation` is the dict built in the
`except ValidationError` branch (lines 95-102); `unexpected` is the dict
built in the generic `except Exception` branch (lines 106-111), which
carries `row_index`, `path = "N/A"`, a prefixed `message` and `detail`
but no `validator` key. -/
inductive VErr : Type where
  | noSchema
  | ruleViolation (rowIndex : Nat) (path msg vkind : String) (vval inst : PyVal)
  | unexpected (rowIndex : Nat) (emsg : String)

/-- The `row_index` key of an error dict (`none` for the fatal
no-schema entry, which has only a `message`). -/
def VErr.rowIdx : VErr → Option Nat
  | .noSchema => none
  | .ruleViolation i _ _ _ _ _ => some i
  | .unexpected i _ => some i

/-- The `validator` key of an error dict: present only on schema-rule
violations; the generic exception entry records no validator kind. -/
def VErr.validatorKind : VErr → Option String
  | .ruleViolation _ _ _ k _ _ => some k
  | _ => none

/-- The `path` key of an error dict. -/
def VErr.pathOf : VErr → Option String
  | .noSchema => none
  | .ruleViolation _ p _ _ _ _ => some p
  | .unexpected _ _ => some "N/A"

/-- The `message` key of an error dict. -/
def VErr.messageOf : VErr → String
  | .noSchema => "No schema provided for validation."
  | .ruleViolation _ _ m _ _ _ => m
  | .unexpected _ e => "Unexpected error during validation: " ++ e

/-- One entry of the report's `warnings` list, one constructor per
`warnings.append` site: the no-data warning (line 75), the consolidated
missing-required warning (lines 166-169), the per-field enum warning
(lines 182-185), the per-bound min/max warnings (lines 213-216, 219-222)
and the no-numeric-data warning (lines 227-230). -/
inductive Warn : Type where
  | noData
  | missingRequired (fields : List String)
  | enumNotCovered (field : String) (missing : List Scalar)
  | minNotTested (field : String) (bound : PyVal) (found : ℚ)
  | maxNotTested (field : String) (bound : PyVal) (found : ℚ)
  | noNumericData (field : String)

/-- Does this warning come from the consolidated required-fields site? -/
def Warn.isMissingRequired : Warn → Bool
  | .missingRequired _ => true
  | _ => false

/-- The `required_fields_coverage` record. -/
structure FieldCov : Type where
  total : Nat
  covered : Nat
  missing : List String
deriving DecidableEq, Repr

/-- One `enum_coverage` entry. -/
structure EnumCov : Type where
  total : Nat
  covered : Nat
  missing : List Scalar
deriving DecidableEq, Repr

/-- One `min_max_coverage` entry. -/
structure MMCov : Type where
  minConstraint : PyVal
  maxConstraint : PyVal
  minData : ℚ
  maxData : ℚ
  minBoundaryTested : Bool
  maxBoundaryTested : Bool

/-- The report's `coverage` section. -/
structure Coverage : Type where
  requiredFieldsCoverage : FieldCov
  enumCoverage : List (String × EnumCov)
  minMaxCoverage : List (String × MMCov)

/-- The validation report returned to the caller. -/
structure Report : Type where
  overallStatus : String
  errors : List VErr
  warnings : List Warn
  coverage : Coverage

/-- The report's initial coverage section (data_checker.py lines 66-70). -/
def zeroCoverage : Coverage := ⟨⟨0, 0, []⟩, [], []⟩

/-- The short-circuit report for an empty dataset (lines 73-77). -/
def noDataReport : Report := ⟨"WARNINGS", [], [.noData], zeroCoverage⟩

/-- The short-circuit report for a falsy schema (lines 79-83). -/
def noSchemaReport : Report := ⟨"FAIL", [.noSchema], [], zeroCoverage⟩

/-- The per-record validation loop (lines 90-112), enumerating records
from index `i`: each record appends at most one error dict — from the
`ValidationError` handler or from the generic handler — and the loop
always continues with the next record.  The `validator_value` and
`instance` fields pass through `_to_json_serializable` (line 95). -/
def pass1Errors (oracle : Oracle) : Nat → List (List (String × PyVal)) → List VErr
  | _, [] => []
  | i, r :: t =>
    (match oracle r with
     | .ok => []
     | .fail p m k vv inst =>
        [.ruleViolation i p m k (to_json_serializable vv) (to_json_serializable inst)]
     | .exn m => [.unexpected i m]) ++ pass1Errors oracle (i + 1) t

/-- The overall status right after the schema-validation pass: `"FAIL"`
iff some record produced an error (each handler assigns `"FAIL"`),
otherwise the initial `"PASS"`. -/
def pass1Status (oracle : Oracle) (df : DataFrame) : String :=
  if (pass1Errors oracle 0 (records df)).isEmpty then "PASS" else "FAIL"

/-- Insert into a hash-ordered enumeration (helper for `hashSort`). -/
def hashInsert {α : Type} (h : α → Nat) (a : α) : List α → List α
  | [] => [a]
  | b :: t => if h a ≤ h b then a :: b :: t else b :: hashInsert h a t

/-- Model of CPython's `list(s)` on a `set` `s`: the iteration order of a
hash table is determined by the (per-process randomized) hashes of the
elements; the embedding enumerates the elements sorted by an explicit
hash parameter `h`. -/
def hashSort {α : Type} (h : α → Nat) : List α → List α
  | [] => []
  | a :: t => hashInsert h a (hashSort h t)

/-- Membership in the schema's required-name set with at least one
non-null value in the column of that name (lines 143-146): false when
the dataset has no such column, or when `data_df[col].isnull().all()`. -/
def isPresent (df : DataFrame) (f : String) : Bool :=
  match colLookup df f with
  | some c => !(c.values.all pyIsNa)
  | none => false

/-- The schema's required-name set, `set(schema.get('required', []))`
(line 117); only membership and cardinality of this set are observable. -/
def requiredList (s : JSchema) : List String :=
  s.required.dedup

/-- `list(required_fields_in_schema - present_required_fields)`
(line 158), in hash-table order. -/
def missingRequiredList (h : String → Nat) (df : DataFrame) (s : JSchema) : List String :=
  hashSort h ((requiredList s).filter (fun f => !isPresent df f))

/-- The consolidated `required_fields_coverage` record (lines 159-163). -/
def requiredCov (h : String → Nat) (df : DataFrame) (s : JSchema) : FieldCov :=
  ⟨(requiredList s).length,
   ((requiredList s).filter (fun f => isPresent df f)).length,
   missingRequiredList h df s⟩

/-- Normalize the whole list of declared enum values and view each as a
hashable scalar, failing like `set(...)` does on an unhashable element. -/
def scalarsOf : List PyVal → Except String (List Scalar)
  | [] => .ok []
  | v :: t =>
    match normScalar v with
    | some s => (scalarsOf t).map (fun r => s :: r)
    | none => .error "TypeError: unhashable type"

/-- `enum_values_in_schema`: for each property declaring an `enum`, the
set of its normalized values, `set(self._to_json_serializable(enum))`
(lines 127-131), in properties order. -/
def declEnums : List (String × PropSpec) → Except String (List (String × List Scalar))
  | [] => .ok []
  | (n, p) :: t =>
    match p.enum with
    | none => declEnums t
    | some e =>
      match scalarsOf e with
      | .error msg => .error msg
      | .ok sc => (declEnums t).map (fun r => (n, sc.dedup) :: r)

/-- `enum_values_in_data[col]`: the set of distinct normalized values of
the column's non-null cells,
`set(ser(val) for val in data_df[col].dropna().unique())` (line 150);
empty when the dataset has no such column. -/
def observedFor (df : DataFrame) (f : String) : Except String (List Scalar) :=
  match colLookup df f with
  | some c => (scalarsOf (c.values.filter (fun v => !pyIsNa v))).map List.dedup
  | none => .ok []

/-- The `min_max_constraints` dict (lines 133-137): for each property
declaring `minimum` or `maximum`, both constraint values after
`_to_json_serializable` (an absent key's `.get` default `None` stays
`None`, i.e. `.null`). -/
def minMaxCons (s : JSchema) : List (String × PyVal × PyVal) :=
  s.properties.filterMap (fun p =>
    if p.2.minimum.isSome || p.2.maximum.isSome then
      some (p.1, (match p.2.minimum with | none => PyVal.null | some v => to_json_serializable v),
                 (match p.2.maximum with | none => PyVal.null | some v => to_json_serializable v))
    else none)

/-- The data extremes gathered for one min/max field (lines 152-155,
190): `some (min, max)` over the finite numeric cells when the column
exists, has numeric dtype, is non-empty and has at least one non-NaN
value (`Series.min`/`Series.max` skip NaN; an all-NaN numeric column
yields NaN, and `min(inf, nan) = inf` leaves the trackers untouched);
`none` when the trackers stay at `±inf`. -/
def mmScan (df : DataFrame) (f : String) : Option (ℚ × ℚ) :=
  match colLookup df f with
  | none => none
  | some c =>
    if c.numeric && !c.values.isEmpty then
      match c.values.filterMap pyNumQ with
      | [] => none
      | q :: qs => some (qs.foldl min q, qs.foldl max q)
    else none

/-- Python numeric coercion of a constraint value as used by
`max_c - min_c`, `c + tolerance`, `c - tolerance` (lines 196-201):
ints/floats (and bools, which are ints) succeed; any other operand
raises `TypeError`.  (NaN-valued bounds are outside the modelled
fragment.) -/
def pyToQ : PyVal → Except String ℚ
  | .int n => .ok (n : ℚ)
  | .float q => .ok q
  | .bool b => .ok (if b then 1 else 0)
  | .npInt n => .ok (n : ℚ)
  | .npFloat q => .ok q
  | .npBool b => .ok (if b then 1 else 0)
  | _ => .error "TypeError: unsupported operand type(s)"

/-- The per-field min/max consolidation (lines 188-230): with data
present, compute the tolerance (1% of `max − min` when both bounds are
declared, else the absolute fallback `0.01`), the two boundary-tested
flags, the coverage entry and the per-bound warnings; with no usable
numeric data, no entry and one warning when some bound is declared.
Arithmetic or comparison on a non-numeric declared bound raises
`TypeError`, which propagates. -/
def mmField (df : DataFrame) (f : String) (mc xc : PyVal) :
    Except String (Option MMCov × List Warn) :=
  match mmScan df f with
  | some (mn, mx) =>
    match (if mc.isNull || xc.isNull then Except.ok ((1 : ℚ)/100) else
            match pyToQ xc, pyToQ mc with
            | .ok a, .ok b => Except.ok ((a - b) * ((1 : ℚ)/100))
            | .error e, _ => Except.error e
            | _, .error e => Except.error e : Except String ℚ) with
    | .error e => .error e
    | .ok tol =>
      match (if mc.isNull then .ok true else
              (pyToQ mc).map (fun b => decide (mn ≤ b + tol) && decide (b - tol ≤ mn))) with
      | .error e => .error e
      | .ok minT =>
        match (if xc.isNull then .ok true else
                (pyToQ xc).map (fun a => decide (a - tol ≤ mx) && decide (mx ≤ a + tol))) with
        | .error e => .error e
        | .ok maxT =>
          .ok (some ⟨mc, xc, mn, mx, minT, maxT⟩,
               (if !mc.isNull && !minT then [Warn.minNotTested f mc mn] else []) ++
               (if !xc.isNull && !maxT then [Warn.maxNotTested f xc mx] else []))
  | none =>
    .ok (none, if !mc.isNull || !xc.isNull then [Warn.noNumericData f] else [])

/-- The enum consolidation loop (lines 172-185) threading the current
overall status: each enum field records its entry unconditionally and,
when `missing` is non-empty, sets the status to `"WARNINGS"` and appends
one warning for that field. -/
def enumConsolidate (hv : Scalar → Nat) (df : DataFrame) :
    List (String × List Scalar) → String →
    Except String (List (String × EnumCov) × List Warn × String)
  | [], st => .ok ([], [], st)
  | (f, decl) :: t, st =>
    match observedFor df f with
    | .error e => .error e
    | .ok obs =>
      let missing := hashSort hv (decl.filter (fun a => !obs.contains a))
      let st' := if missing.isEmpty then st else "WARNINGS"
      match enumConsolidate hv df t st' with
      | .error e => .error e
      | .ok (rest, wss, stf) =>
        .ok ((f, ⟨decl.length, obs.length, missing⟩) :: rest,
             (if missing.isEmpty then [] else [Warn.enumNotCovered f missing]) ++ wss,
             stf)

/-- The min/max consolidation loop (lines 188-230) threading the current
overall status: every appended warning is accompanied by setting the
status to `"WARNINGS"`. -/
def mmConsolidate (df : DataFrame) :
    List (String × PyVal × PyVal) → String →
    Except String (List (String × MMCov) × List Warn × String)
  | [], st => .ok ([], [], st)
  | (f, mc, xc) :: t, st =>
    match mmField df f mc xc with
    | .error e => .error e
    | .ok (oc, ws) =>
      let st' := if ws.isEmpty then st else "WARNINGS"
      match mmConsolidate df t st' with
      | .error e => .error e
      | .ok (rest, wss, stf) =>
        .ok ((match oc with | some cov => [(f, cov)] | none => []) ++ rest, ws ++ wss, stf)

/-- The warning appended by the required-fields consolidation
(lines 164-169): one consolidated entry naming all missing fields, only
when some required field is missing. -/
def requiredWarns (h : String → Nat) (df : DataFrame) (s : JSchema) : List Warn :=
  if (missingRequiredList h df s).isEmpty then []
  else [.missingRequired (missingRequiredList h df s)]

/-- The overall status after the required-fields consolidation
(line 165): assigned `"WARNINGS"` whenever the missing list is
non-empty, regardless of the status the validation pass left. -/
def statusAfterRequired (h : String → Nat) (oracle : Oracle) (df : DataFrame)
    (s : JSchema) : String :=
  if (missingRequiredList h df s).isEmpty then pass1Status oracle df else "WARNINGS"

/-- Embedding of `DataChecker.validate_data_against_schema`
(data_checker.py lines 57-234).  Parameters: `h` and `hv` are the
interpreter's (randomized) hash orders for string sets and for
value sets; `oracle` is the external `jsonschema.validate`.  A falsy
schema (`None` or `{}`) is `Option.none`.  The result is `.error` when
the Python code would propagate an unhandled exception to the caller,
`.ok` with the structured report otherwise.  (All places where the
Python code can raise abort the call either way; the embedding collapses
their relative order.)  The final `_to_json_serializable` over the
assembled report (line 232) is the identity on this structured form,
whose leaves are already normalized. -/
def validate_data_against_schema (h : String → Nat) (hv : Scalar → Nat)
    (oracle : Oracle) (df : DataFrame) (schema : Option JSchema) :
    Except String Report :=
  if df.isEmptyDf then .ok noDataReport
  else
    match schema with
    | none => .ok noSchemaReport
    | some s =>
      match declEnums s.properties with
      | .error e => .error e
      | .ok des =>
        match enumConsolidate hv df des (statusAfterRequired h oracle df s) with
        | .error e => .error e
        | .ok (ecov, ws2, st2) =>
          match mmConsolidate df (minMaxCons s) st2 with
          | .error e => .error e
          | .ok (mcov, ws3, st3) =>
            .ok ⟨st3, pass1Errors oracle 0 (records df),
                 requiredWarns h df s ++ ws2 ++ ws3,
                 ⟨requiredCov h df s, ecov, mcov⟩⟩

end SDV

namespace SDV

/-! ### Concrete instances used to exercise the embedding -/

/-- A fixed (degenerate) hash order for string sets. -/
def h0 : String → Nat := fun _ => 0

/-- A fixed (degenerate) hash order for value sets. -/
def hv0 : Scalar → Nat := fun _ => 0

/-- Oracle for a one-row dataset whose record violates the `enum` rule. -/
def c1oracle : Oracle := fun _ =>
  .fail "deque(['c'])" "'X' is not one of ['A', 'B']" "enum"
    (.list (.cons (.str "A") (.cons (.str "B") .nil))) (.str "X")

def c1df : DataFrame := ⟨[("c", ⟨[.str "X"], false⟩)], 1⟩

def c1schema : JSchema := ⟨[], [("c", ⟨some [.str "A", .str "B"], none, none⟩)]⟩

/-- Oracle flagging the record holding the out-of-enum value `"C"`. -/
def c2oracle : Oracle := fun r =>
  match r with
  | [(_, .str "C")] =>
    .fail "deque(['c'])" "'C' is not one of ['A', 'B']" "enum"
      (.list (.cons (.str "A") (.cons (.str "B") .nil))) (.str "C")
  | _ => .ok

def c2df : DataFrame := ⟨[("c", ⟨[.str "A", .str "C"], false⟩)], 2⟩

def c2schema : JSchema := ⟨[], [("c", ⟨some [.str "A", .str "B"], none, none⟩)]⟩

/-- With a malformed schema, `jsonschema.validate` raises a non-schema
error on every record, which the loop catches. -/
def c3oracle : Oracle := fun _ => .exn "jsonschema.exceptions.SchemaError"

def c3df : DataFrame := ⟨[("x", ⟨[.int 1], true⟩)], 1⟩

/-- A schema declaring a non-numeric `minimum` for a numeric column. -/
def c3schema : JSchema := ⟨[], [("x", ⟨none, some (.str "low"), none⟩)]⟩

def c4oracle : Oracle := fun _ => .exn "boom"

def c4df : DataFrame := ⟨[("a", ⟨[.int 1], true⟩)], 1⟩

def c4schema : JSchema := ⟨[], []⟩

def c5oracle : Oracle := fun _ =>
  .fail "deque(['age'])" "'x' is not of type 'integer'" "type" (.str "integer") (.str "x")

def c5df : DataFrame := ⟨[("age", ⟨[.str "x"], false⟩)], 1⟩

def c5schema : JSchema := ⟨[], []⟩

def c6df : DataFrame := ⟨[("a", ⟨[.int 1], true⟩)], 1⟩

def c7oracle : Oracle := fun _ => .ok

def c7df : DataFrame := ⟨[("score", ⟨[.int 0, .int 50, .int 100], true⟩)], 3⟩

def c7schema : JSchema := ⟨[], [("score", ⟨none, some (.int 0), some (.int 100)⟩)]⟩

/-- A witness value with nesting: `{"a": [np.int64(3)]}`. -/
def c8val : PyVal := .dict (.cons "a" (.list (.cons (.npInt 3) .nil)) .nil)

/-- A hash order under which `"b"` enumerates before `"a"`. -/
def c9h : String → Nat := fun s => if s = "a" then 1 else 0

def c9oracle : Oracle := fun _ =>
  .fail "deque([])" "'a' is a required property" "required"
    (.list (.cons (.str "a") (.cons (.str "b") .nil))) (.dict (.cons "c" (.int 1) .nil))

def c9df : DataFrame := ⟨[("c", ⟨[.int 1], true⟩)], 1⟩

def c9schema : JSchema := ⟨["a", "b"], []⟩

end SDV

namespace SDV

/-! ### Basic lemmas about the embedded operations -/

mutual

theorem serIdem : ∀ (x : PyVal), noNpNan x = true →
    to_json_serializable (to_json_serializable x) = to_json_serializable x
  | .null, _ => rfl
  | .bool _, _ => rfl
  | .int _, _ => rfl
  | .float _, _ => rfl
  | .nan, _ => rfl
  | .str _, _ => rfl
  | .list xs, h => by
    simp only [noNpNan] at h
    simp only [to_json_serializable, serIdemList xs h]
  | .dict xs, h => by
    simp only [noNpNan] at h
    simp only [to_json_serializable, serIdemDict xs h]
  | .series xs, h => by
    simp only [noNpNan] at h
    simp only [to_json_serializable, serIdemList xs h]
  | .frame rows, h => by
    simp only [noNpNan] at h
    simp only [to_json_serializable, serIdemRows rows h]
  | .npInt _, _ => rfl
  | .npFloat _, _ => rfl
  | .npNan, h => by simp [noNpNan] at h
  | .npBool _, _ => rfl
  | .timestamp _, _ => rfl
  | .timedelta _, _ => rfl
  | .naT, _ => rfl
  | .objOther _ true, _ => rfl
  | .objOther _ false, _ => rfl

theorem serIdemList : ∀ (xs : PyList), noNpNanList xs = true →
    to_json_serializableList (to_json_serializableList xs) = to_json_serializableList xs
  | .nil, _ => rfl
  | .cons v t, h => by
    simp only [noNpNanList, Bool.and_eq_true] at h
    simp only [to_json_serializableList, serIdem v h.1, serIdemList t h.2]

theorem serIdemDict : ∀ (xs : PyDict), noNpNanDict xs = true →
    to_json_serializableDict (to_json_serializableDict xs) = to_json_serializableDict xs
  | .nil, _ => rfl
  | .cons k v t, h => by
    simp only [noNpNanDict, Bool.and_eq_true] at h
    simp only [to_json_serializableDict, serIdem v h.1, serIdemDict t h.2]

theorem serIdemRows : ∀ (rows : PyRows), noNpNanRows rows = true →
    to_json_serializableList (to_json_serializableRows rows) = to_json_serializableRows rows
  | .nil, _ => rfl
  | .cons r t, h => by
    simp only [noNpNanRows, Bool.and_eq_true] at h
    simp only [to_json_serializableRows, to_json_serializableList, to_json_serializable,
      serIdemDict r h.1, serIdemRows t h.2]

end

theorem mem_hashInsert {α : Type} (h : α → Nat) (a b : α) (l : List α) :
    b ∈ hashInsert h a l ↔ b = a ∨ b ∈ l := by
  induction l with
  | nil => simp [hashInsert]
  | cons c t ih =>
    by_cases hc : h a ≤ h c
    · simp [hashInsert, hc]
    · simp [hashInsert, hc, ih]
      tauto

theorem mem_hashSort {α : Type} (h : α → Nat) (l : List α) (b : α) :
    b ∈ hashSort h l ↔ b ∈ l := by
  induction l with
  | nil => simp [hashSort]
  | cons a t ih => simp [hashSort, mem_hashInsert, ih]

theorem hashInsert_ne_nil {α : Type} (h : α → Nat) (a : α) (l : List α) :
    hashInsert h a l ≠ [] := by
  cases l with
  | nil => simp [hashInsert]
  | cons c t =>
    by_cases hc : h a ≤ h c <;> simp [hashInsert, hc]

theorem hashSort_eq_nil_iff {α : Type} (h : α → Nat) (l : List α) :
    hashSort h l = [] ↔ l = [] := by
  cases l with
  | nil => simp [hashSort]
  | cons a t => simp [hashSort, hashInsert_ne_nil]

/-- With unique keys, `find?` on an association list returns exactly the
member with the sought key. -/
theorem find?_of_mem_nodup {β : Type} (l : List (String × β)) (f : String) (x : β)
    (hn : (l.map Prod.fst).Nodup) (hm : (f, x) ∈ l) :
    l.find? (fun p => p.1 == f) = some (f, x) := by
  induction l with
  | nil => simp at hm
  | cons a t ih =>
    simp only [List.map_cons, List.nodup_cons] at hn
    rcases List.mem_cons.mp hm with heq | htail
    · subst heq
      simp [List.find?]
    · have hne : a.1 ≠ f := by
        intro hcontra
        exact hn.1 (hcontra ▸ (List.mem_map.mpr ⟨(f, x), htail, rfl⟩))
      simp only [List.find?, beq_iff_eq, hne, ite_false]
      have : (a.1 == f) = false := beq_eq_false_iff_ne.mpr hne
      simp [this, ih hn.2 htail]

/-- Every error produced by the validation loop started at index `i`
carries a row index `≥ i`. -/
theorem pass1_rowIdx_ge (oracle : Oracle) :
    ∀ (i : Nat) (l : List (List (String × PyVal))) (e : VErr),
      e ∈ pass1Errors oracle i l → ∃ k, e.rowIdx = some k ∧ i ≤ k := by
  intro i l
  induction l generalizing i with
  | nil => simp [pass1Errors]
  | cons r t ih =>
    intro e he
    simp only [pass1Errors, List.mem_append] at he
    rcases he with h1 | h2
    · cases horacle : oracle r
      · rw [horacle] at h1; simp at h1
      · rw [horacle] at h1; simp at h1
        exact ⟨i, by simp [h1, VErr.rowIdx]⟩
      · rw [horacle] at h1; simp at h1
        exact ⟨i, by simp [h1, VErr.rowIdx]⟩
    · obtain ⟨k, hk, hik⟩ := ih (i + 1) e h2
      exact ⟨k, hk, Nat.le_of_succ_le hik⟩

/-- The validation loop records at most one error per row index: the
record at index `j` is visited once and each visit appends at most one
error dict. -/
theorem pass1_countP_le_one (oracle : Oracle) (j : Nat) :
    ∀ (i : Nat) (l : List (List (String × PyVal))),
      (pass1Errors oracle i l).countP (fun e => e.rowIdx == some j) ≤ 1 := by
  intro i l
  induction l generalizing i with
  | nil => simp [pass1Errors]
  | cons r t ih =>
    have htail0 : j < i + 1 →
        (pass1Errors oracle (i + 1) t).countP (fun e => e.rowIdx == some j) = 0 := by
      intro hj
      rw [List.countP_eq_zero]
      intro e he
      obtain ⟨k, hk, hik⟩ := pass1_rowIdx_ge oracle (i + 1) t e he
      have : k ≠ j := by omega
      simp [hk, this]
    cases horacle : oracle r with
    | ok =>
      simp only [pass1Errors, horacle, List.nil_append]
      exact ih (i + 1)
    | fail p m v vv inst =>
      simp only [pass1Errors, horacle, List.singleton_append, List.countP_cons]
      rcases Nat.lt_or_ge j (i + 1) with hj | hj
      · have := htail0 hj
        split <;> omega
      · have hne : i ≠ j := by omega
        have hite : ((VErr.ruleViolation i p m v (to_json_serializable vv)
            (to_json_serializable inst)).rowIdx == some j) = false := by
          simp [VErr.rowIdx, hne]
        rw [hite]
        simp only [Bool.false_eq_true, if_false]
        have := ih (i + 1)
        omega
    | exn m =>
      simp only [pass1Errors, horacle, List.singleton_append, List.countP_cons]
      rcases Nat.lt_or_ge j (i + 1) with hj | hj
      · have := htail0 hj
        split <;> omega
      · have hne : i ≠ j := by omega
        have hite : ((VErr.unexpected i m).rowIdx == some j) = false := by
          simp [VErr.rowIdx, hne]
        rw [hite]
        simp only [Bool.false_eq_true, if_false]
        have := ih (i + 1)
        omega

/-- If the oracle reports a schema-rule violation for the record at
position `k`, the loop records the corresponding error dict (and keeps
going: the lemma holds for every such `k`). -/
theorem pass1_mem_fail (oracle : Oracle) :
    ∀ (l : List (List (String × PyVal))) (i k : Nat) (hk : k < l.length)
      (p m v : String) (vv inst : PyVal),
      oracle (l.get ⟨k, hk⟩) = .fail p m v vv inst →
      VErr.ruleViolation (i + k) p m v (to_json_serializable vv) (to_json_serializable inst) ∈
        pass1Errors oracle i l := by
  intro l
  induction l with
  | nil => intro i k hk; simp at hk
  | cons r t ih =>
    intro i k hk p m v vv inst horacle
    cases k with
    | zero =>
      simp only [List.get] at horacle
      simp only [pass1Errors, horacle, List.mem_append, Nat.add_zero]
      exact Or.inl (List.mem_singleton.mpr rfl)
    | succ k' =>
      simp only [List.get] at horacle
      have := ih (i + 1) k' (Nat.lt_of_succ_lt_succ hk) p m v vv inst horacle
      simp only [pass1Errors, List.mem_append]
      right
      have harith : i + 1 + k' = i + (k' + 1) := by omega
      rwa [harith] at this

/-- If the oracle raises a non-schema exception for the record at
position `k`, the loop records the generic error dict and keeps going. -/
theorem pass1_mem_exn (oracle : Oracle) :
    ∀ (l : List (List (String × PyVal))) (i k : Nat) (hk : k < l.length) (m : String),
      oracle (l.get ⟨k, hk⟩) = .exn m →
      VErr.unexpected (i + k) m ∈ pass1Errors oracle i l := by
  intro l
  induction l with
  | nil => intro i k hk; simp at hk
  | cons r t ih =>
    intro i k hk m horacle
    cases k with
    | zero =>
      simp only [List.get] at horacle
      simp only [pass1Errors, horacle, List.mem_append, Nat.add_zero]
      exact Or.inl (List.mem_singleton.mpr rfl)
    | succ k' =>
      simp only [List.get] at horacle
      have := ih (i + 1) k' (Nat.lt_of_succ_lt_succ hk) m horacle
      simp only [pass1Errors, List.mem_append]
      right
      have harith : i + 1 + k' = i + (k' + 1) := by omega
      rwa [harith] at this

theorem records_length (df : DataFrame) : (records df).length = df.nrows := by
  simp [records]

theorem records_get (df : DataFrame) (k : Nat) (hk : k < (records df).length) :
    (records df).get ⟨k, hk⟩ = recordAt df k := by
  simp [records]

/-- Dissection of a successful full run on a non-empty dataset and a
truthy schema into the stage results it is assembled from. -/
theorem validate_ok_parts {h : String → Nat} {hv : Scalar → Nat} {oracle : Oracle}
    {df : DataFrame} {s : JSchema} {r : Report}
    (hdf : df.isEmptyDf = false)
    (hok : validate_data_against_schema h hv oracle df (some s) = .ok r) :
    ∃ des ecov ws2 st2 mcov ws3 st3,
      declEnums s.properties = .ok des ∧
      enumConsolidate hv df des (statusAfterRequired h oracle df s) = .ok (ecov, ws2, st2) ∧
      mmConsolidate df (minMaxCons s) st2 = .ok (mcov, ws3, st3) ∧
      r = ⟨st3, pass1Errors oracle 0 (records df),
           requiredWarns h df s ++ ws2 ++ ws3,
           ⟨requiredCov h df s, ecov, mcov⟩⟩ := by
  unfold validate_data_against_schema at hok
  rw [hdf] at hok
  simp only [Bool.false_eq_true, if_false] at hok
  cases hde : declEnums s.properties with
  | error e => simp only [hde] at hok; exact Except.noConfusion hok
  | ok des =>
    simp only [hde] at hok
    cases hec : enumConsolidate hv df des (statusAfterRequired h oracle df s) with
    | error e => simp only [hec] at hok; exact Except.noConfusion hok
    | ok t2 =>
      obtain ⟨ecov, ws2, st2⟩ := t2
      simp only [hec] at hok
      cases hmc : mmConsolidate df (minMaxCons s) st2 with
      | error e => simp only [hmc] at hok; exact Except.noConfusion hok
      | ok t3 =>
        obtain ⟨mcov, ws3, st3⟩ := t3
        simp only [hmc, Except.ok.injEq] at hok
        exact ⟨des, ecov, ws2, st2, mcov, ws3, st3, rfl, hec, hmc, hok.symm⟩

end SDV

namespace SDV

theorem declEnums_mem :
    ∀ (props : List (String × PropSpec)) (des : List (String × List Scalar)),
      declEnums props = .ok des →
      ∀ (f : String) (p : PropSpec) (e : List PyVal),
        (f, p) ∈ props → p.enum = some e →
        ∃ sc, scalarsOf e = .ok sc ∧ (f, sc.dedup) ∈ des := by
  intro props
  induction props with
  | nil => intro des hok f p e hm; simp at hm
  | cons a t ih =>
    intro des hok f p e hm he
    simp only [declEnums] at hok
    rcases List.mem_cons.mp hm with heq | htail
    · have ha : a = (f, p) := heq.symm
      subst ha
      simp only [he] at hok
      cases hsc : scalarsOf e with
      | error m => simp only [hsc] at hok; exact Except.noConfusion hok
      | ok sc =>
        simp only [hsc] at hok
        cases hdt : declEnums t with
        | error m => simp only [hdt, Except.map] at hok; exact Except.noConfusion hok
        | ok rest =>
          simp only [hdt, Except.map, Except.ok.injEq] at hok
          exact ⟨sc, rfl, hok ▸ List.mem_cons_self _ _⟩
    · cases hae : a.2.enum with
      | none =>
        simp only [hae] at hok
        exact ih des hok f p e htail he
      | some e2 =>
        simp only [hae] at hok
        cases hsc : scalarsOf e2 with
        | error m => simp only [hsc] at hok; exact Except.noConfusion hok
        | ok sc2 =>
          simp only [hsc] at hok
          cases hdt : declEnums t with
          | error m => simp only [hdt, Except.map] at hok; exact Except.noConfusion hok
          | ok rest =>
            simp only [hdt, Except.map, Except.ok.injEq] at hok
            obtain ⟨sc, hsc3, hmem⟩ := ih rest hdt f p e htail he
            exact ⟨sc, hsc3, hok ▸ List.mem_cons_of_mem _ hmem⟩

theorem declEnums_keys :
    ∀ (props : List (String × PropSpec)) (des : List (String × List Scalar)),
      declEnums props = .ok des →
      List.Sublist (des.map Prod.fst) (props.map Prod.fst) := by
  intro props
  induction props with
  | nil => intro des hok; simp only [declEnums, Except.ok.injEq] at hok; simp [← hok]
  | cons a t ih =>
    intro des hok
    simp only [declEnums] at hok
    cases hae : a.2.enum with
    | none =>
      simp only [hae] at hok
      exact (ih des hok).cons a.1
    | some e2 =>
      simp only [hae] at hok
      cases hsc : scalarsOf e2 with
      | error m => simp only [hsc] at hok; exact Except.noConfusion hok
      | ok sc2 =>
        simp only [hsc] at hok
        cases hdt : declEnums t with
        | error m => simp only [hdt, Except.map] at hok; exact Except.noConfusion hok
        | ok rest =>
          simp only [hdt, Except.map, Except.ok.injEq] at hok
          rw [← hok]
          exact (ih rest hdt).cons₂ a.1

theorem enumConsolidate_keys (hv : Scalar → Nat) (df : DataFrame) :
    ∀ (des : List (String × List Scalar)) (st : String) (ecov : List (String × EnumCov))
      (ws : List Warn) (stf : String),
      enumConsolidate hv df des st = .ok (ecov, ws, stf) →
      ecov.map Prod.fst = des.map Prod.fst := by
  intro des
  induction des with
  | nil =>
    intro st ecov ws stf hok
    simp only [enumConsolidate, Except.ok.injEq, Prod.mk.injEq] at hok
    simp [← hok.1]
  | cons a t ih =>
    intro st ecov ws stf hok
    obtain ⟨f, decl⟩ := a
    simp only [enumConsolidate] at hok
    cases hobs : observedFor df f with
    | error m => simp only [hobs] at hok; exact Except.noConfusion hok
    | ok obs =>
      simp only [hobs] at hok
      cases hrec : enumConsolidate hv df t
          (if (hashSort hv (decl.filter (fun a => !obs.contains a))).isEmpty then st
           else "WARNINGS") with
      | error m => simp only [hrec] at hok; exact Except.noConfusion hok
      | ok t3 =>
        obtain ⟨rest, wss, stf2⟩ := t3
        simp only [hrec, Except.ok.injEq, Prod.mk.injEq] at hok
        rw [← hok.1]
        simp [ih _ rest wss stf2 hrec]

theorem enumConsolidate_mem (hv : Scalar → Nat) (df : DataFrame) :
    ∀ (des : List (String × List Scalar)) (st : String) (ecov : List (String × EnumCov))
      (ws : List Warn) (stf : String),
      enumConsolidate hv df des st = .ok (ecov, ws, stf) →
      ∀ (f : String) (decl : List Scalar), (f, decl) ∈ des →
        ∃ obs, observedFor df f = .ok obs ∧
          (f, (⟨decl.length, obs.length,
                hashSort hv (decl.filter (fun a => !obs.contains a))⟩ : EnumCov)) ∈ ecov ∧
          (decl.filter (fun a => !obs.contains a) ≠ [] →
            Warn.enumNotCovered f (hashSort hv (decl.filter (fun a => !obs.contains a))) ∈ ws) := by
  intro des
  induction des with
  | nil => intro st ecov ws stf hok f decl hm; simp at hm
  | cons a t ih =>
    intro st ecov ws stf hok f decl hm
    obtain ⟨g, gdecl⟩ := a
    simp only [enumConsolidate] at hok
    cases hobs : observedFor df g with
    | error m => simp only [hobs] at hok; exact Except.noConfusion hok
    | ok gobs =>
      simp only [hobs] at hok
      cases hrec : enumConsolidate hv df t
          (if (hashSort hv (gdecl.filter (fun a => !gobs.contains a))).isEmpty then st
           else "WARNINGS") with
      | error m => simp only [hrec] at hok; exact Except.noConfusion hok
      | ok t3 =>
        obtain ⟨rest, wss, stf2⟩ := t3
        simp only [hrec, Except.ok.injEq, Prod.mk.injEq] at hok
        obtain ⟨hecov, hws, hstf⟩ := hok
        rcases List.mem_cons.mp hm with heq | htail
        · simp only [Prod.mk.injEq] at heq
          obtain ⟨hf, hdecl⟩ := heq
          subst hf; subst hdecl
          refine ⟨gobs, hobs, ?_, ?_⟩
          · rw [← hecov]; exact List.mem_cons_self _ _
          · intro hne
            rw [← hws]
            have hcond : ¬(hashSort hv (decl.filter (fun a => !gobs.contains a))).isEmpty = true := by
              rw [List.isEmpty_iff, hashSort_eq_nil_iff]
              exact fun hcontra => hne hcontra
            simp only [hcond, if_false, List.mem_append]
            left
            simp
        · obtain ⟨obs, hobs2, hmem, hwarn⟩ := ih _ rest wss stf2 hrec f decl htail
          refine ⟨obs, hobs2, ?_, ?_⟩
          · rw [← hecov]; exact List.mem_cons_of_mem _ hmem
          · intro hne
            rw [← hws]
            exact List.mem_append_right _ (hwarn hne)

theorem enumConsolidate_warns (hv : Scalar → Nat) (df : DataFrame) :
    ∀ (des : List (String × List Scalar)) (st : String) (ecov : List (String × EnumCov))
      (ws : List Warn) (stf : String),
      enumConsolidate hv df des st = .ok (ecov, ws, stf) →
      ∀ w ∈ ws, ∃ f m, w = Warn.enumNotCovered f m := by
  intro des
  induction des with
  | nil =>
    intro st ecov ws stf hok
    simp only [enumConsolidate, Except.ok.injEq, Prod.mk.injEq] at hok
    rw [← hok.2.1]
    simp
  | cons a t ih =>
    intro st ecov ws stf hok w hw
    obtain ⟨g, gdecl⟩ := a
    simp only [enumConsolidate] at hok
    cases hobs : observedFor df g with
    | error m => simp only [hobs] at hok; exact Except.noConfusion hok
    | ok gobs =>
      simp only [hobs] at hok
      cases hrec : enumConsolidate hv df t
          (if (hashSort hv (gdecl.filter (fun a => !gobs.contains a))).isEmpty then st
           else "WARNINGS") with
      | error m => simp only [hrec] at hok; exact Except.noConfusion hok
      | ok t3 =>
        obtain ⟨rest, wss, stf2⟩ := t3
        simp only [hrec, Except.ok.injEq, Prod.mk.injEq] at hok
        rw [← hok.2.1] at hw
        rcases List.mem_append.mp hw with h1 | h2
        · rcases hif : (hashSort hv (gdecl.filter (fun a => !gobs.contains a))).isEmpty with _ | _
          · rw [hif] at h1
            simp at h1
            exact ⟨g, _, h1⟩
          · rw [hif] at h1
            simp at h1
        · exact ih _ rest wss stf2 hrec w h2

end SDV

namespace SDV

theorem mem_ite_singleton {α : Type} {c : Prop} [Decidable c] {w x : α}
    (h : w ∈ (if c then [x] else [])) : w = x := by
  split at h
  · simpa using h
  · simp at h

theorem mmField_warns (df : DataFrame) (f : String) (mc xc : PyVal)
    (oc : Option MMCov) (ws : List Warn)
    (hok : mmField df f mc xc = .ok (oc, ws)) :
    ∀ w ∈ ws, w.isMissingRequired = false := by
  intro w hw
  unfold mmField at hok
  cases hs : mmScan df f with
  | none =>
    simp only [hs, Except.ok.injEq, Prod.mk.injEq] at hok
    rw [← hok.2] at hw
    have := mem_ite_singleton hw
    rw [this]
    rfl
  | some p =>
    obtain ⟨mn, mx⟩ := p
    simp only [hs] at hok
    cases he1 : (if mc.isNull || xc.isNull then Except.ok ((1 : ℚ)/100) else
        match pyToQ xc, pyToQ mc with
        | .ok a, .ok b => Except.ok ((a - b) * ((1 : ℚ)/100))
        | .error e, _ => Except.error e
        | _, .error e => Except.error e : Except String ℚ) with
    | error m => simp only [he1] at hok; exact Except.noConfusion hok
    | ok tol =>
      simp only [he1] at hok
      cases he2 : (if mc.isNull then Except.ok true else
          (pyToQ mc).map (fun b => decide (mn ≤ b + tol) && decide (b - tol ≤ mn))) with
      | error m => simp only [he2] at hok; exact Except.noConfusion hok
      | ok minT =>
        simp only [he2] at hok
        cases he3 : (if xc.isNull then Except.ok true else
            (pyToQ xc).map (fun a => decide (a - tol ≤ mx) && decide (mx ≤ a + tol))) with
        | error m => simp only [he3] at hok; exact Except.noConfusion hok
        | ok maxT =>
          simp only [he3, Except.ok.injEq, Prod.mk.injEq] at hok
          rw [← hok.2] at hw
          rcases List.mem_append.mp hw with h1 | h2
          · rw [mem_ite_singleton h1]; rfl
          · rw [mem_ite_singleton h2]; rfl

theorem mmConsolidate_mem (df : DataFrame) :
    ∀ (cons : List (String × PyVal × PyVal)) (st : String) (mcov : List (String × MMCov))
      (ws : List Warn) (stf : String),
      mmConsolidate df cons st = .ok (mcov, ws, stf) →
      ∀ (f : String) (mc xc : PyVal), (f, mc, xc) ∈ cons →
        ∃ oc ws2, mmField df f mc xc = .ok (oc, ws2) ∧
          (∀ cov, oc = some cov → (f, cov) ∈ mcov) ∧ (∀ w ∈ ws2, w ∈ ws) := by
  intro cons
  induction cons with
  | nil => intro st mcov ws stf hok f mc xc hm; simp at hm
  | cons a t ih =>
    intro st mcov ws stf hok f mc xc hm
    obtain ⟨g, gmc, gxc⟩ := a
    simp only [mmConsolidate] at hok
    cases hmf : mmField df g gmc gxc with
    | error m => simp only [hmf] at hok; exact Except.noConfusion hok
    | ok p =>
      obtain ⟨goc, gws⟩ := p
      simp only [hmf] at hok
      cases hrec : mmConsolidate df t (if gws.isEmpty then st else "WARNINGS") with
      | error m => simp only [hrec] at hok; exact Except.noConfusion hok
      | ok t3 =>
        obtain ⟨rest, wss, stf2⟩ := t3
        simp only [hrec, Except.ok.injEq, Prod.mk.injEq] at hok
        obtain ⟨hmcov, hws, hstf⟩ := hok
        rcases List.mem_cons.mp hm with heq | htail
        · simp only [Prod.mk.injEq] at heq
          obtain ⟨hf, hmc, hxc⟩ := heq
          subst hf; subst hmc; subst hxc
          refine ⟨goc, gws, hmf, ?_, ?_⟩
          · intro cov hcov
            rw [← hmcov, hcov]
            exact List.mem_append_left _ (List.mem_singleton.mpr rfl)
          · intro w hw
            rw [← hws]
            exact List.mem_append_left _ hw
        · obtain ⟨oc, ws2, hmf2, hmem, hsub⟩ := ih _ rest wss stf2 hrec f mc xc htail
          refine ⟨oc, ws2, hmf2, ?_, ?_⟩
          · intro cov hcov
            rw [← hmcov]
            exact List.mem_append_right _ (hmem cov hcov)
          · intro w hw
            rw [← hws]
            exact List.mem_append_right _ (hsub w hw)

theorem mmConsolidate_keys (df : DataFrame) :
    ∀ (cons : List (String × PyVal × PyVal)) (st : String) (mcov : List (String × MMCov))
      (ws : List Warn) (stf : String),
      mmConsolidate df cons st = .ok (mcov, ws, stf) →
      List.Sublist (mcov.map Prod.fst) (cons.map Prod.fst) := by
  intro cons
  induction cons with
  | nil =>
    intro st mcov ws stf hok
    simp only [mmConsolidate, Except.ok.injEq, Prod.mk.injEq] at hok
    simp [← hok.1]
  | cons a t ih =>
    intro st mcov ws stf hok
    obtain ⟨g, gmc, gxc⟩ := a
    simp only [mmConsolidate] at hok
    cases hmf : mmField df g gmc gxc with
    | error m => simp only [hmf] at hok; exact Except.noConfusion hok
    | ok p =>
      obtain ⟨goc, gws⟩ := p
      simp only [hmf] at hok
      cases hrec : mmConsolidate df t (if gws.isEmpty then st else "WARNINGS") with
      | error m => simp only [hrec] at hok; exact Except.noConfusion hok
      | ok t3 =>
        obtain ⟨rest, wss, stf2⟩ := t3
        simp only [hrec, Except.ok.injEq, Prod.mk.injEq] at hok
        rw [← hok.1]
        cases goc with
        | some cov =>
          simp only [List.singleton_append, List.map_cons]
          exact (ih _ rest wss stf2 hrec).cons₂ g
        | none =>
          simp only [List.nil_append]
          exact (ih _ rest wss stf2 hrec).cons g

theorem mmConsolidate_warns (df : DataFrame) :
    ∀ (cons : List (String × PyVal × PyVal)) (st : String) (mcov : List (String × MMCov))
      (ws : List Warn) (stf : String),
      mmConsolidate df cons st = .ok (mcov, ws, stf) →
      ∀ w ∈ ws, w.isMissingRequired = false := by
  intro cons
  induction cons with
  | nil =>
    intro st mcov ws stf hok
    simp only [mmConsolidate, Except.ok.injEq, Prod.mk.injEq] at hok
    rw [← hok.2.1]
    simp
  | cons a t ih =>
    intro st mcov ws stf hok w hw
    obtain ⟨g, gmc, gxc⟩ := a
    simp only [mmConsolidate] at hok
    cases hmf : mmField df g gmc gxc with
    | error m => simp only [hmf] at hok; exact Except.noConfusion hok
    | ok p =>
      obtain ⟨goc, gws⟩ := p
      simp only [hmf] at hok
      cases hrec : mmConsolidate df t (if gws.isEmpty then st else "WARNINGS") with
      | error m => simp only [hrec] at hok; exact Except.noConfusion hok
      | ok t3 =>
        obtain ⟨rest, wss, stf2⟩ := t3
        simp only [hrec, Except.ok.injEq, Prod.mk.injEq] at hok
        rw [← hok.2.1] at hw
        rcases List.mem_append.mp hw with h1 | h2
        · exact mmField_warns df g gmc gxc goc gws hmf w h1
        · exact ih _ rest wss stf2 hrec w h2

theorem filterMap_keys_sublist {β γ : Type} (F : (String × β) → Option (String × γ))
    (hF : ∀ p x, F p = some x → x.1 = p.1) :
    ∀ (l : List (String × β)),
      List.Sublist ((l.filterMap F).map Prod.fst) (l.map Prod.fst) := by
  intro l
  induction l with
  | nil => simp
  | cons a t ih =>
    cases hFa : F a with
    | none =>
      rw [List.filterMap_cons_none hFa]
      exact ih.cons a.1
    | some x =>
      rw [List.filterMap_cons_some hFa]
      simp only [List.map_cons, hF a x hFa]
      exact ih.cons₂ a.1

theorem minMaxCons_keys (s : JSchema) :
    List.Sublist ((minMaxCons s).map Prod.fst) (s.properties.map Prod.fst) := by
  unfold minMaxCons
  apply filterMap_keys_sublist
  intro p x hpx
  split at hpx
  · exact (Option.some.injEq .. ▸ hpx) ▸ rfl
  · exact Option.noConfusion hpx

end SDV

namespace SDV

/-- Characterization of a successful per-field min/max consolidation
when usable numeric data is present: the recorded entry carries both
constraints and both data extremes, and each boundary-tested flag is
true exactly when its bound is undeclared or the corresponding extreme
lies within `tolerance` of it, where `tolerance` is 1% of
`maximum − minimum` when both bounds are declared and `0.01` otherwise. -/
theorem mmField_some (df : DataFrame) (f : String) (mc xc : PyVal) (mn mx : ℚ)
    (oc : Option MMCov) (ws : List Warn)
    (hs : mmScan df f = some (mn, mx))
    (hok : mmField df f mc xc = .ok (oc, ws)) :
    ∃ (tol : ℚ) (minT maxT : Bool),
      oc = some ⟨mc, xc, mn, mx, minT, maxT⟩ ∧
      ((mc.isNull = true ∨ xc.isNull = true) → tol = (1 : ℚ)/100) ∧
      (mc.isNull = false → xc.isNull = false →
        ∃ a b, pyToQ xc = .ok a ∧ pyToQ mc = .ok b ∧ tol = (a - b) * ((1 : ℚ)/100)) ∧
      (minT = true ↔ (mc.isNull = true ∨
        ∃ b, pyToQ mc = .ok b ∧ b - tol ≤ mn ∧ mn ≤ b + tol)) ∧
      (maxT = true ↔ (xc.isNull = true ∨
        ∃ a, pyToQ xc = .ok a ∧ a - tol ≤ mx ∧ mx ≤ a + tol)) := by
  unfold mmField at hok
  simp only [hs] at hok
  cases he1 : (if mc.isNull || xc.isNull then Except.ok ((1 : ℚ)/100) else
      match pyToQ xc, pyToQ mc with
      | .ok a, .ok b => Except.ok ((a - b) * ((1 : ℚ)/100))
      | .error e, _ => Except.error e
      | _, .error e => Except.error e : Except String ℚ) with
  | error m => simp only [he1] at hok; exact Except.noConfusion hok
  | ok tol =>
    simp only [he1] at hok
    cases he2 : (if mc.isNull then Except.ok true else
        (pyToQ mc).map (fun b => decide (mn ≤ b + tol) && decide (b - tol ≤ mn))) with
    | error m => simp only [he2] at hok; exact Except.noConfusion hok
    | ok minT =>
      simp only [he2] at hok
      cases he3 : (if xc.isNull then Except.ok true else
          (pyToQ xc).map (fun a => decide (a - tol ≤ mx) && decide (mx ≤ a + tol))) with
      | error m => simp only [he3] at hok; exact Except.noConfusion hok
      | ok maxT =>
        simp only [he3, Except.ok.injEq, Prod.mk.injEq] at hok
        refine ⟨tol, minT, maxT, hok.1.symm, ?_, ?_, ?_, ?_⟩
        · intro hor
          have hcn : (mc.isNull || xc.isNull) = true := by
            rcases hor with hh | hh <;> simp [hh]
          rw [if_pos hcn] at he1
          injection he1 with h
          exact h.symm
        · intro hmcf hxcf
          have hcn : ¬((mc.isNull || xc.isNull) = true) := by simp [hmcf, hxcf]
          rw [if_neg hcn] at he1
          cases hqx : pyToQ xc with
          | error m => simp only [hqx] at he1; exact Except.noConfusion he1
          | ok a =>
            simp only [hqx] at he1
            cases hqm : pyToQ mc with
            | error m => simp only [hqm] at he1; exact Except.noConfusion he1
            | ok b =>
              simp only [hqm] at he1
              injection he1 with h
              exact ⟨a, b, rfl, rfl, h.symm⟩
        · by_cases hmcn : mc.isNull = true
          · rw [if_pos hmcn] at he2
            injection he2 with h
            rw [← h]
            simp [hmcn]
          · rw [if_neg hmcn] at he2
            cases hqm : pyToQ mc with
            | error m => simp only [hqm, Except.map] at he2; exact Except.noConfusion he2
            | ok b =>
              simp only [hqm, Except.map] at he2
              injection he2 with h
              constructor
              · intro hT
                rw [← h] at hT
                simp only [Bool.and_eq_true, decide_eq_true_iff] at hT
                exact Or.inr ⟨b, rfl, hT.2, hT.1⟩
              · intro hrhs
                rcases hrhs with hh | ⟨b2, hb2, h1, h2⟩
                · exact absurd hh hmcn
                · injection hb2 with hb
                  subst hb
                  rw [← h]
                  simp only [Bool.and_eq_true, decide_eq_true_iff]
                  exact ⟨h2, h1⟩
        · by_cases hxcn : xc.isNull = true
          · rw [if_pos hxcn] at he3
            injection he3 with h
            rw [← h]
            simp [hxcn]
          · rw [if_neg hxcn] at he3
            cases hqx : pyToQ xc with
            | error m => simp only [hqx, Except.map] at he3; exact Except.noConfusion he3
            | ok a =>
              simp only [hqx, Except.map] at he3
              injection he3 with h
              constructor
              · intro hT
                rw [← h] at hT
                simp only [Bool.and_eq_true, decide_eq_true_iff] at hT
                exact Or.inr ⟨a, rfl, hT.1, hT.2⟩
              · intro hrhs
                rcases hrhs with hh | ⟨a2, ha2, h1, h2⟩
                · exact absurd hh hxcn
                · injection ha2 with ha
                  subst ha
                  rw [← h]
                  simp only [Bool.and_eq_true, decide_eq_true_iff]
                  exact ⟨h1, h2⟩

/-- A required field is "present" exactly when the dataset has a column
of that name with at least one non-null value. -/
theorem isPresent_iff (df : DataFrame) (f : String) :
    isPresent df f = true ↔
      ∃ c, colLookup df f = some c ∧ ∃ v ∈ c.values, pyIsNa v = false := by
  unfold isPresent
  cases hc : colLookup df f with
  | none => simp
  | some c =>
    simp only [Option.some.injEq]
    constructor
    · intro hall
      simp only [Bool.not_eq_true', List.all_eq_false] at hall
      obtain ⟨v, hv, hna⟩ := hall
      exact ⟨c, rfl, v, hv, by simpa using hna⟩
    · intro ⟨c2, hc2, v, hv, hna⟩
      cases hc2
      simp only [Bool.not_eq_true', List.all_eq_false]
      exact ⟨v, hv, by simpa using hna⟩

end SDV

namespace SDV

/-! ### Claim theorems -/

/-- C1: the claim says `overall_status` is `FAIL` whenever `errors` is
non-empty (with forward-only escalation `PASS → WARNINGS → FAIL`), so a
run recording both a validation error and a coverage warning must end
`FAIL`.  The code instead assigns `"WARNINGS"` unconditionally at every
coverage-warning site after the error pass set `"FAIL"`: on a one-row
dataset whose record violates the enum rule and whose enum set is not
fully covered, the returned report has one error and one warning but
`overall_status = "WARNINGS"`. -/
theorem c1_fail_overwritten_by_coverage_warning :
    (validate_data_against_schema h0 hv0 c1oracle c1df (some c1schema)).map
      (fun r => (r.overallStatus, r.errors.length, r.warnings.length)) =
      .ok ("WARNINGS", 1, 1) := rfl

/-- C3: the claim says the engine is total over any input shape and
never propagates an unhandled exception.  But with a schema declaring a
non-numeric `minimum` (for example the string `"low"`) over a numeric
column with data, the boundary check evaluates
`min_data_val <= min_constraint_val + tolerance`, and `"low" + 0.01`
raises an uncaught `TypeError` that propagates to the caller. -/
theorem c3_unhandled_typeerror_on_string_bound :
    validate_data_against_schema h0 hv0 c3oracle c3df (some c3schema) =
      .error "TypeError: unsupported operand type(s)" := rfl

/-- C6: an empty dataset short-circuits to the fixed no-data report
(status `WARNINGS`, exactly one warning, zeroed coverage, no errors,
independent of the oracle, the schema and the hash orders, so neither
pass runs); a non-empty dataset with a falsy schema short-circuits to
the fixed no-schema report (status `FAIL`, exactly one error, zeroed
coverage, no warnings). -/
theorem c6_fatal_short_circuits :
    (∀ (h : String → Nat) (hv : Scalar → Nat) (oracle : Oracle) (df : DataFrame)
       (schema : Option JSchema), df.isEmptyDf = true →
       validate_data_against_schema h hv oracle df schema = .ok noDataReport) ∧
    (∀ (h : String → Nat) (hv : Scalar → Nat) (oracle : Oracle) (df : DataFrame),
       df.isEmptyDf = false →
       validate_data_against_schema h hv oracle df none = .ok noSchemaReport) ∧
    noDataReport.overallStatus = "WARNINGS" ∧ noDataReport.warnings = [.noData] ∧
    noDataReport.errors = [] ∧ noDataReport.coverage = zeroCoverage ∧
    noSchemaReport.overallStatus = "FAIL" ∧ noSchemaReport.errors = [.noSchema] ∧
    noSchemaReport.warnings = [] ∧ noSchemaReport.coverage = zeroCoverage := by
  refine ⟨?_, ?_, rfl, rfl, rfl, rfl, rfl, rfl, rfl, rfl⟩
  · intro h hv oracle df schema hdf
    unfold validate_data_against_schema
    rw [if_pos hdf]
  · intro h hv oracle df hdf
    unfold validate_data_against_schema
    rw [if_neg (by simp [hdf])]

theorem c6_fatal_short_circuits_witness :
    validate_data_against_schema h0 hv0 (fun _ => .ok) ⟨[], 0⟩ (some ⟨["a"], []⟩) =
      .ok noDataReport ∧
    validate_data_against_schema h0 hv0 (fun _ => .ok) c6df none = .ok noSchemaReport :=
  ⟨c6_fatal_short_circuits.1 h0 hv0 (fun _ => .ok) ⟨[], 0⟩ (some ⟨["a"], []⟩) rfl,
   c6_fatal_short_circuits.2.1 h0 hv0 (fun _ => .ok) c6df rfl⟩

/-- C8 (counterexample): the normalizer is not idempotent on a numpy
floating NaN: one application yields the Python float NaN (the
`np.floating` branch runs before the `pd.isna` check), a second yields
`None`. -/
theorem c8_counterexample :
    to_json_serializable (to_json_serializable PyVal.npNan) ≠
      to_json_serializable PyVal.npNan := by
  intro hcontra
  exact PyVal.noConfusion hcontra

/-- C8 (amended): the normalizer is idempotent on every supported input
value shape that contains no numpy floating-NaN wrapper — null, bool,
integer, float, string, list, nested dict, Series, DataFrame, the other
numpy/pandas wrappers and the string-fallback objects. -/
theorem c8_normalizer_idempotent (x : PyVal) (hx : noNpNan x = true) :
    to_json_serializable (to_json_serializable x) = to_json_serializable x :=
  serIdem x hx

theorem c8_normalizer_idempotent_witness :
    noNpNan c8val = true ∧
    to_json_serializable (to_json_serializable c8val) = to_json_serializable c8val :=
  ⟨rfl, c8_normalizer_idempotent c8val rfl⟩

/-- C10: when the dataset is empty and the schema is simultaneously
missing/empty, the empty-dataset precondition is checked first, so the
call returns the no-data report (status `WARNINGS`), not the no-schema
report (status `FAIL`). -/
theorem c10_empty_dataset_checked_before_schema (h : String → Nat) (hv : Scalar → Nat)
    (oracle : Oracle) (df : DataFrame) (hdf : df.isEmptyDf = true) :
    validate_data_against_schema h hv oracle df none = .ok noDataReport ∧
    noDataReport.overallStatus = "WARNINGS" ∧
    noDataReport ≠ noSchemaReport ∧
    noSchemaReport.overallStatus = "FAIL" := by
  refine ⟨?_, rfl, ?_, rfl⟩
  · unfold validate_data_against_schema
    rw [if_pos hdf]
  · intro hcontra
    have := congrArg Report.overallStatus hcontra
    simp [noDataReport, noSchemaReport] at this

theorem c10_empty_dataset_checked_before_schema_witness :
    validate_data_against_schema h0 hv0 (fun _ => .ok) ⟨[], 0⟩ none = .ok noDataReport ∧
    noDataReport.overallStatus = "WARNINGS" ∧
    noDataReport ≠ noSchemaReport ∧
    noSchemaReport.overallStatus = "FAIL" :=
  c10_empty_dataset_checked_before_schema h0 hv0 (fun _ => .ok) ⟨[], 0⟩ rfl

end SDV

namespace SDV

/-- C4 (counterexample): the claim says the generic exception entry
carries `validator_kind = "exception"`.  The dict appended by the
generic handler has keys `row_index`, `path`, `message`, `detail` and no
`validator` key at all: on a run whose only record raises `"boom"`, the
single recorded error has no validator kind. -/
theorem c4_counterexample :
    (validate_data_against_schema h0 hv0 c4oracle c4df (some c4schema)).map
      (fun r => r.errors.map VErr.validatorKind) = .ok [none] ∧
    (none : Option String) ≠ some "exception" := ⟨rfl, by decide⟩

/-- C4 (amended): for every record whose validation raises an
unexpected non-schema exception, the loop catches it and appends a
generic error carrying that record's `row_index`, `path = "N/A"`, the
message `"Unexpected error during validation: "` followed by the
exception's message, and no `validator` field; the loop then continues,
so the report's error list is still the concatenation over all records. -/
theorem c4_generic_exception_entry {h : String → Nat} {hv : Scalar → Nat}
    {oracle : Oracle} {df : DataFrame} {s : JSchema} {r : Report}
    (hdf : df.isEmptyDf = false)
    (hok : validate_data_against_schema h hv oracle df (some s) = .ok r)
    (k : Nat) (m : String) (hk : k < df.nrows)
    (hexn : oracle (recordAt df k) = .exn m) :
    VErr.unexpected k m ∈ r.errors ∧
    (VErr.unexpected k m).rowIdx = some k ∧
    (VErr.unexpected k m).pathOf = some "N/A" ∧
    (VErr.unexpected k m).messageOf = "Unexpected error during validation: " ++ m ∧
    (VErr.unexpected k m).validatorKind = none ∧
    r.errors = pass1Errors oracle 0 (records df) := by
  obtain ⟨des, ecov, ws2, st2, mcov, ws3, st3, hde, hec, hmc, hr⟩ := validate_ok_parts hdf hok
  have herr : r.errors = pass1Errors oracle 0 (records df) := by rw [hr]
  refine ⟨?_, rfl, rfl, rfl, rfl, herr⟩
  rw [herr]
  have hlen : k < (records df).length := by rw [records_length]; exact hk
  have hget : (records df).get ⟨k, hlen⟩ = recordAt df k := records_get df k hlen
  have := pass1_mem_exn oracle (records df) 0 k hlen m (by rw [hget]; exact hexn)
  simpa using this

theorem c4_generic_exception_entry_witness :
    ∃ r : Report,
      validate_data_against_schema h0 hv0 c4oracle c4df (some c4schema) = .ok r ∧
      VErr.unexpected 0 "boom" ∈ r.errors ∧
      (VErr.unexpected 0 "boom").pathOf = some "N/A" ∧
      (VErr.unexpected 0 "boom").messageOf = "Unexpected error during validation: boom" ∧
      (VErr.unexpected 0 "boom").validatorKind = none := by
  obtain ⟨hmem, _, hpath, hmsg, hkind, _⟩ :=
    @c4_generic_exception_entry h0 hv0 c4oracle c4df c4schema _ rfl rfl 0 "boom"
      (by decide) rfl
  exact ⟨_, rfl, hmem, hpath, hmsg, hkind⟩

/-- C5: each record contributes at most one error dict (the external
validator raises at most one exception per record, and each loop
iteration appends at most one entry), so no row index appears twice in
`errors`; when the oracle reports a schema-rule violation for record
`k`, the recorded entry carries `row_index = k`, the failing path,
message, validator kind, the configured validator value and the
offending instance (both normalized), and the loop still processes
every other record. -/
theorem c5_at_most_one_error_per_record {h : String → Nat} {hv : Scalar → Nat}
    {oracle : Oracle} {df : DataFrame} {s : JSchema} {r : Report}
    (hdf : df.isEmptyDf = false)
    (hok : validate_data_against_schema h hv oracle df (some s) = .ok r) :
    (∀ j : Nat, r.errors.countP (fun e => e.rowIdx == some j) ≤ 1) ∧
    (∀ (k : Nat) (p m v : String) (vv inst : PyVal), k < df.nrows →
      oracle (recordAt df k) = .fail p m v vv inst →
      VErr.ruleViolation k p m v (to_json_serializable vv) (to_json_serializable inst) ∈
        r.errors) := by
  obtain ⟨des, ecov, ws2, st2, mcov, ws3, st3, hde, hec, hmc, hr⟩ := validate_ok_parts hdf hok
  have herr : r.errors = pass1Errors oracle 0 (records df) := by rw [hr]
  constructor
  · intro j
    rw [herr]
    exact pass1_countP_le_one oracle j 0 (records df)
  · intro k p m v vv inst hk hfail
    rw [herr]
    have hlen : k < (records df).length := by rw [records_length]; exact hk
    have hget : (records df).get ⟨k, hlen⟩ = recordAt df k := records_get df k hlen
    have := pass1_mem_fail oracle (records df) 0 k hlen p m v vv inst
      (by rw [hget]; exact hfail)
    simpa using this

theorem c5_at_most_one_error_per_record_witness :
    ∃ r : Report,
      validate_data_against_schema h0 hv0 c5oracle c5df (some c5schema) = .ok r ∧
      r.errors.countP (fun e => e.rowIdx == some 0) ≤ 1 ∧
      VErr.ruleViolation 0 "deque(['age'])" "'x' is not of type 'integer'" "type"
        (.str "integer") (.str "x") ∈ r.errors := by
  have hc5 := @c5_at_most_one_error_per_record h0 hv0 c5oracle c5df c5schema _ rfl rfl
  exact ⟨_, rfl, hc5.1 0, hc5.2 0 "deque(['age'])" "'x' is not of type 'integer'" "type"
    (.str "integer") (.str "x") (by decide) rfl⟩

end SDV

namespace SDV

theorem filter_eq_nil_of_all_false {α : Type} (p : α → Bool) :
    ∀ l : List α, (∀ a ∈ l, p a = false) → l.filter p = [] := by
  intro l h
  induction l with
  | nil => rfl
  | cons a t ih =>
    rw [List.filter_cons]
    have ha : p a = false := h a (List.mem_cons_self _ _)
    simp only [ha, Bool.false_eq_true, if_false]
    exact ih (fun b hb => h b (List.mem_cons_of_mem _ hb))

/-- C9 (counterexample): the claim says the missing required fields are
listed in schema declaration order.  The code materializes them via
`list(required_set - present_set)`, whose order is CPython's
hash-tables iteration order: under a hash seed ordering `"b"` before
`"a"`, a schema declaring `required: ["a", "b"]` (both missing) yields
`missing = ["b", "a"]`, not the declaration order `["a", "b"]`. -/
theorem c9_counterexample :
    (validate_data_against_schema c9h hv0 c9oracle c9df (some c9schema)).map
      (fun r => r.coverage.requiredFieldsCoverage.missing) = .ok ["b", "a"] ∧
    c9schema.required = ["a", "b"] ∧
    (["b", "a"] : List String) ≠ ["a", "b"] := ⟨rfl, rfl, by decide⟩

/-- C9 (amended): `required_fields_coverage` has `total` the size of the
required-name set, `covered` the number of required fields with at least
one non-null value in some record, and `missing` containing exactly the
required fields with no such value — in an implementation-defined
(hash-dependent) order, not necessarily schema declaration order; when
`missing` is non-empty exactly one consolidated warning naming all of
them is appended (and none otherwise). -/
theorem c9_required_coverage {h : String → Nat} {hv : Scalar → Nat}
    {oracle : Oracle} {df : DataFrame} {s : JSchema} {r : Report}
    (hdf : df.isEmptyDf = false)
    (hok : validate_data_against_schema h hv oracle df (some s) = .ok r) :
    r.coverage.requiredFieldsCoverage.total = (requiredList s).length ∧
    r.coverage.requiredFieldsCoverage.covered =
      ((requiredList s).filter (fun f => isPresent df f)).length ∧
    (∀ f, f ∈ r.coverage.requiredFieldsCoverage.missing ↔
      f ∈ requiredList s ∧ isPresent df f = false) ∧
    (r.coverage.requiredFieldsCoverage.missing = [] →
      r.warnings.filter Warn.isMissingRequired = []) ∧
    (r.coverage.requiredFieldsCoverage.missing ≠ [] →
      r.warnings.filter Warn.isMissingRequired =
        [.missingRequired r.coverage.requiredFieldsCoverage.missing]) := by
  obtain ⟨des, ecov, ws2, st2, mcov, ws3, st3, hde, hec, hmc, hr⟩ := validate_ok_parts hdf hok
  have hrfc : r.coverage.requiredFieldsCoverage = requiredCov h df s := by rw [hr]
  have hwarn : r.warnings = requiredWarns h df s ++ ws2 ++ ws3 := by rw [hr]
  have hws2 : ws2.filter Warn.isMissingRequired = [] := by
    apply filter_eq_nil_of_all_false
    intro w hw
    obtain ⟨f, m, hwfm⟩ := enumConsolidate_warns hv df des _ ecov ws2 st2 hec w hw
    rw [hwfm]
    rfl
  have hws3 : ws3.filter Warn.isMissingRequired = [] := by
    apply filter_eq_nil_of_all_false
    intro w hw
    exact mmConsolidate_warns df (minMaxCons s) st2 mcov ws3 st3 hmc w hw
  have hmiss : r.coverage.requiredFieldsCoverage.missing = missingRequiredList h df s := by
    rw [hrfc]; rfl
  refine ⟨by rw [hrfc]; rfl, by rw [hrfc]; rfl, ?_, ?_, ?_⟩
  · intro f
    rw [hmiss]
    unfold missingRequiredList
    rw [mem_hashSort]
    simp [List.mem_filter]
  · intro hmis
    rw [hmiss] at hmis
    rw [hwarn, List.filter_append, List.filter_append, hws2, hws3]
    unfold requiredWarns
    rw [if_pos (by simp [hmis])]
    simp
  · intro hmis
    rw [hmiss] at hmis
    rw [hwarn, List.filter_append, List.filter_append, hws2, hws3]
    unfold requiredWarns
    rw [if_neg (by simp [hmis])]
    rw [hmiss]
    simp [List.filter_cons, Warn.isMissingRequired]

theorem c9_required_coverage_witness :
    ∃ r : Report,
      validate_data_against_schema c9h hv0 c9oracle c9df (some c9schema) = .ok r ∧
      r.coverage.requiredFieldsCoverage.total = (requiredList c9schema).length ∧
      r.coverage.requiredFieldsCoverage.covered =
        ((requiredList c9schema).filter (fun f => isPresent c9df f)).length ∧
      ("a" ∈ r.coverage.requiredFieldsCoverage.missing ↔
        "a" ∈ requiredList c9schema ∧ isPresent c9df "a" = false) ∧
      (r.coverage.requiredFieldsCoverage.missing ≠ [] →
        r.warnings.filter Warn.isMissingRequired =
          [.missingRequired r.coverage.requiredFieldsCoverage.missing]) := by
  have hc9 := @c9_required_coverage c9h hv0 c9oracle c9df c9schema _ rfl rfl
  exact ⟨_, rfl, hc9.1, hc9.2.1, hc9.2.2.1 "a", hc9.2.2.2.2⟩

end SDV

namespace SDV

/-- C2 (counterexample): the claim says `covered` is the size of the
intersection of the observed value set with the declared enum set.  The
code stores `covered = len(data_enums)`, the number of *all* distinct
observed non-null values: with declared enum `["A", "B"]` and data
`["A", "C"]`, the entry records `covered = 2` although the intersection
has size 1. -/
theorem c2_counterexample :
    (validate_data_against_schema h0 hv0 c2oracle c2df (some c2schema)).map
      (fun r => (r.coverage.enumCoverage.find? (fun q => q.1 == "c")).map
        (fun q => q.2.covered)) = .ok (some 2) ∧
    (Except.map
      (fun obs => (obs.filter
        (fun a => ([Scalar.str "A", Scalar.str "B"] : List Scalar).contains a)).length)
      (observedFor c2df "c")) = .ok 1 ∧
    (2 : Nat) ≠ 1 := ⟨rfl, rfl, by decide⟩

/-- C2 (amended): for every field declaring an enum, the report's
`enum_coverage` entry for that field is present (even when nothing is
missing) with `total` the size of the declared enum set, `covered` the
number of distinct non-null normalized values observed for that field —
all of them, not only those inside the declared set — and `missing`
containing exactly the declared values not observed; when `missing` is
non-empty one warning naming that field's missing values is appended. -/
theorem c2_enum_coverage {h : String → Nat} {hv : Scalar → Nat}
    {oracle : Oracle} {df : DataFrame} {s : JSchema} {r : Report}
    (hdf : df.isEmptyDf = false)
    (hok : validate_data_against_schema h hv oracle df (some s) = .ok r)
    (hnd : (s.properties.map Prod.fst).Nodup)
    (f : String) (p : PropSpec) (e : List PyVal)
    (hfp : (f, p) ∈ s.properties) (hpe : p.enum = some e) :
    ∃ (decl obs : List Scalar) (cov : EnumCov),
      scalarsOf e = .ok decl ∧ observedFor df f = .ok obs ∧
      r.coverage.enumCoverage.find? (fun q => q.1 == f) = some (f, cov) ∧
      cov.total = decl.dedup.length ∧
      cov.covered = obs.length ∧
      (∀ a : Scalar, a ∈ cov.missing ↔ a ∈ decl ∧ a ∉ obs) ∧
      (cov.missing ≠ [] → Warn.enumNotCovered f cov.missing ∈ r.warnings) := by
  obtain ⟨des, ecov, ws2, st2, mcov, ws3, st3, hde, hec, hmc, hr⟩ := validate_ok_parts hdf hok
  obtain ⟨sc, hsc, hdes⟩ := declEnums_mem s.properties des hde f p e hfp hpe
  obtain ⟨obs, hobs, hmem, hwarn⟩ :=
    enumConsolidate_mem hv df des _ ecov ws2 st2 hec f sc.dedup hdes
  have hecovk : (ecov.map Prod.fst).Nodup := by
    rw [enumConsolidate_keys hv df des _ ecov ws2 st2 hec]
    exact (declEnums_keys s.properties des hde).nodup hnd
  have hfind := find?_of_mem_nodup ecov f _ hecovk hmem
  have henum : r.coverage.enumCoverage = ecov := by rw [hr]
  have hwarns : r.warnings = requiredWarns h df s ++ ws2 ++ ws3 := by rw [hr]
  refine ⟨sc, obs, _, hsc, hobs, by rw [henum]; exact hfind, ?_, rfl, ?_, ?_⟩
  · rfl
  · intro a
    show a ∈ hashSort hv (sc.dedup.filter (fun b => !obs.contains b)) ↔ _
    rw [mem_hashSort, List.mem_filter, List.mem_dedup]
    simp
  · intro hne
    have hne2 : sc.dedup.filter (fun b => !obs.contains b) ≠ [] := by
      intro hcontra
      apply hne
      show hashSort hv (sc.dedup.filter (fun b => !obs.contains b)) = []
      rw [hashSort_eq_nil_iff]
      exact hcontra
    rw [hwarns]
    exact List.mem_append_left _ (List.mem_append_right _ (hwarn hne2))

theorem c2_enum_coverage_witness :
    ∃ (r : Report) (decl obs : List Scalar) (cov : EnumCov),
      validate_data_against_schema h0 hv0 c2oracle c2df (some c2schema) = .ok r ∧
      scalarsOf [PyVal.str "A", PyVal.str "B"] = .ok decl ∧
      observedFor c2df "c" = .ok obs ∧
      r.coverage.enumCoverage.find? (fun q => q.1 == "c") = some ("c", cov) ∧
      cov.total = decl.dedup.length ∧
      cov.covered = obs.length ∧
      (∀ a : Scalar, a ∈ cov.missing ↔ a ∈ decl ∧ a ∉ obs) ∧
      (cov.missing ≠ [] → Warn.enumNotCovered "c" cov.missing ∈ r.warnings) := by
  obtain ⟨decl, obs, cov, h1, h2, h3, h4, h5, h6, h7⟩ :=
    @c2_enum_coverage h0 hv0 c2oracle c2df c2schema _ rfl rfl (by decide) "c"
      ⟨some [.str "A", .str "B"], none, none⟩ [.str "A", .str "B"]
      (List.mem_singleton.mpr rfl) rfl
  exact ⟨_, decl, obs, cov, rfl, h1, h2, h3, h4, h5, h6, h7⟩

end SDV

namespace SDV

/-- C7: for a field declaring `minimum`/`maximum` whose column yields
usable numeric data, the recorded `min_max_coverage` entry carries both
constraints and both data extremes, and its boundary-tested flags follow
the tolerance rule: tolerance is 1% of `maximum − minimum` when both
bounds are declared, the absolute fallback `0.01` when only one is, and
a bound's flag is true exactly when the bound is undeclared or the
corresponding data extreme lies within `[bound − tol, bound + tol]`. -/
theorem c7_minmax_boundaries {h : String → Nat} {hv : Scalar → Nat}
    {oracle : Oracle} {df : DataFrame} {s : JSchema} {r : Report}
    (hdf : df.isEmptyDf = false)
    (hok : validate_data_against_schema h hv oracle df (some s) = .ok r)
    (hnd : (s.properties.map Prod.fst).Nodup)
    (f : String) (mc xc : PyVal) (mn mx : ℚ)
    (hmm : (f, mc, xc) ∈ minMaxCons s)
    (hscan : mmScan df f = some (mn, mx)) :
    ∃ cov : MMCov,
      r.coverage.minMaxCoverage.find? (fun q => q.1 == f) = some (f, cov) ∧
      cov.minConstraint = mc ∧ cov.maxConstraint = xc ∧
      cov.minData = mn ∧ cov.maxData = mx ∧
      ∃ tol : ℚ,
        ((mc.isNull = true ∨ xc.isNull = true) → tol = (1 : ℚ)/100) ∧
        (mc.isNull = false → xc.isNull = false →
          ∃ a b, pyToQ xc = .ok a ∧ pyToQ mc = .ok b ∧ tol = (a - b) * ((1 : ℚ)/100)) ∧
        (cov.minBoundaryTested = true ↔ (mc.isNull = true ∨
          ∃ b, pyToQ mc = .ok b ∧ b - tol ≤ mn ∧ mn ≤ b + tol)) ∧
        (cov.maxBoundaryTested = true ↔ (xc.isNull = true ∨
          ∃ a, pyToQ xc = .ok a ∧ a - tol ≤ mx ∧ mx ≤ a + tol)) := by
  obtain ⟨des, ecov, ws2, st2, mcov, ws3, st3, hde, hec, hmc2, hr⟩ := validate_ok_parts hdf hok
  obtain ⟨oc, ws4, hmf, hocmem, hsubw⟩ :=
    mmConsolidate_mem df (minMaxCons s) st2 mcov ws3 st3 hmc2 f mc xc hmm
  obtain ⟨tol, minT, maxT, hoc, ht1, ht2, hminT, hmaxT⟩ :=
    mmField_some df f mc xc mn mx oc ws4 hscan hmf
  have hcovmem : (f, (⟨mc, xc, mn, mx, minT, maxT⟩ : MMCov)) ∈ mcov := hocmem _ hoc
  have hnodup : (mcov.map Prod.fst).Nodup :=
    ((mmConsolidate_keys df (minMaxCons s) st2 mcov ws3 st3 hmc2).trans
      (minMaxCons_keys s)).nodup hnd
  have hfind := find?_of_mem_nodup mcov f _ hnodup hcovmem
  have hmmcov : r.coverage.minMaxCoverage = mcov := by rw [hr]
  exact ⟨_, by rw [hmmcov]; exact hfind, rfl, rfl, rfl, rfl, tol, ht1, ht2, hminT, hmaxT⟩

theorem c7_minmax_boundaries_witness :
    ∃ (r : Report) (cov : MMCov),
      validate_data_against_schema h0 hv0 c7oracle c7df (some c7schema) = .ok r ∧
      r.coverage.minMaxCoverage.find? (fun q => q.1 == "score") = some ("score", cov) ∧
      cov.minConstraint = PyVal.int 0 ∧ cov.maxConstraint = PyVal.int 100 ∧
      cov.minData = 0 ∧ cov.maxData = 100 ∧
      cov.minBoundaryTested = true ∧ cov.maxBoundaryTested = true := by
  obtain ⟨cov, hfind, hc1, hc2, hc3, hc4, tol, ht1, ht2, hminT, hmaxT⟩ :=
    @c7_minmax_boundaries h0 hv0 c7oracle c7df c7schema _ rfl rfl (by decide) "score"
      (.int 0) (.int 100) 0 100 (List.Mem.head _) rfl
  obtain ⟨a, b, ha, hb, htol⟩ := ht2 rfl rfl
  injection ha with ha2
  injection hb with hb2
  have hminTrue : cov.minBoundaryTested = true := by
    apply hminT.mpr
    refine Or.inr ⟨b, by rw [← hb2]; rfl, ?_, ?_⟩
    · rw [htol, ← ha2, ← hb2]; push_cast; norm_num
    · rw [htol, ← ha2, ← hb2]; push_cast; norm_num
  have hmaxTrue : cov.maxBoundaryTested = true := by
    apply hmaxT.mpr
    refine Or.inr ⟨a, by rw [← ha2]; rfl, ?_, ?_⟩
    · rw [htol, ← ha2, ← hb2]; push_cast; norm_num
    · rw [htol, ← ha2, ← hb2]; push_cast; norm_num
  exact ⟨_, cov, rfl, hfind, hc1, hc2, hc3, hc4, hminTrue, hmaxTrue⟩

end SDV
